import Mathlib

/-!
Verification of the Jacobin JVM execution core against its specification.

The Go sources are shallowly embedded: byte buffers become `List Nat`
(each element < 256 where it matters), Go strings become `String` or
`List Char`, fallible functions return `Except String _`, and struct
mutation becomes functional record update.  Definitions follow the Go
source files; anything whose defining file is absent from the source
tree is marked `Modelled from the spec:` in its doc comment.
-/

set_option maxRecDepth 4000

/-! ## Frames (package `frames`, used by `jvm/errors.go`)

The `frames.Frame` struct itself is not among the source files; the
fields below are the ones the embedded code reads and writes:
the method bytecode `Meth`, the program counter `PC`, and the class
and method names recorded for stack traces. -/

/-- The call frame, with the fields used by the error-formatting and
stack-trace routines. -/
structure Frame where
  Meth : List Nat
  PC : Nat
  ClName : String
  MethName : String
deriving DecidableEq, Repr

/-- The IMPDEP2 reserved opcode, 0xFF (value stated in the comment of
`formatStackOverflowError` and fixed by the JVM specification). -/
def IMPDEP2 : Nat := 0xFF

/-- `formatStackOverflowError` from `jvm/errors.go`: rewrite the frame's
method bytes so that re-dispatch hits IMPDEP2 with error code 0x01 and
the PC at the time of the error in the following two bytes (big-endian),
then reset the PC to 0.  `uint16(int16(f.PC))` is `f.PC % 65536` for the
non-negative PCs the interpreter produces; `binary.BigEndian.PutUint16`
stores the high byte first. -/
def formatStackOverflowError (f : Frame) : Frame :=
  let currPC := f.PC % 65536
  let meth0 := if f.Meth.length < 5 then List.replicate 5 0 else f.Meth
  let meth1 := meth0.set 0 0x00
  let meth2 := meth1.set 1 IMPDEP2
  let meth3 := meth2.set 2 0x01
  let meth4 := meth3.set 3 (currPC / 256)
  let meth5 := meth4.set 4 (currPC % 256)
  { f with Meth := meth5, PC := 0 }

/-- `formatStackUnderflowError` from `jvm/errors.go`: identical to the
overflow case except that the error code stored at index 2 is 0x02. -/
def formatStackUnderflowError (f : Frame) : Frame :=
  let currPC := f.PC % 65536
  let meth0 := if f.Meth.length < 5 then List.replicate 5 0 else f.Meth
  let meth1 := meth0.set 0 0x00
  let meth2 := meth1.set 1 IMPDEP2
  let meth3 := meth2.set 2 0x02
  let meth4 := meth3.set 3 (currPC / 256)
  let meth5 := meth4.set 4 (currPC % 256)
  { f with Meth := meth5, PC := 0 }

lemma five_le_length_iff (l : List Nat) (h : 5 ≤ l.length) :
    ∃ a b c d e t, l = a :: b :: c :: d :: e :: t := by
  match l with
  | a :: b :: c :: d :: e :: t => exact ⟨a, b, c, d, e, t, rfl⟩
  | [] | [_] | [_, _] | [_, _, _] | [_, _, _, _] => simp at h

/-- C1: after `formatStackOverflowError` (resp. `formatStackUnderflowError`)
rewrites a frame `f`, byte 1 of the method is IMPDEP2, byte 2 is the code
0x01 for overflow (resp. 0x02 for underflow), bytes 3 and 4 are the
big-endian 16-bit encoding of the PC at the time of the error, and the
frame's PC is reset to 0. -/
theorem impdep2_error_formatting (f : Frame) :
    ((formatStackOverflowError f).Meth[1]? = some IMPDEP2 ∧
      (formatStackOverflowError f).Meth[2]? = some 0x01 ∧
      (formatStackOverflowError f).Meth[3]? = some (f.PC % 65536 / 256) ∧
      (formatStackOverflowError f).Meth[4]? = some (f.PC % 256) ∧
      (formatStackOverflowError f).PC = 0) ∧
    ((formatStackUnderflowError f).Meth[1]? = some IMPDEP2 ∧
      (formatStackUnderflowError f).Meth[2]? = some 0x02 ∧
      (formatStackUnderflowError f).Meth[3]? = some (f.PC % 65536 / 256) ∧
      (formatStackUnderflowError f).Meth[4]? = some (f.PC % 256) ∧
      (formatStackUnderflowError f).PC = 0) := by
  have hlen : 5 ≤ (if f.Meth.length < 5 then List.replicate 5 0 else f.Meth).length := by
    split
    · simp
    · omega
  obtain ⟨a, b, c, d, e, t, hl⟩ := five_le_length_iff _ hlen
  have hmod : f.PC % 65536 % 256 = f.PC % 256 := Nat.mod_mod_of_dvd _ (by norm_num)
  constructor <;>
    · refine ⟨?_, ?_, ?_, ?_,
        by simp [formatStackOverflowError, formatStackUnderflowError]⟩ <;>
        · simp only [formatStackOverflowError, formatStackUnderflowError]
          rw [hl]
          simp [List.set, hmod]

/-! ## IUSHR (interpreter, `jvm/run.go`)

The opcode handler file is not among the sources; only its unit test
`TestIushr` (in `jvm/run_part2_test.go`) is.  Two definitions follow:
the JVM-specified behaviour, and the behaviour the unit test pins. -/

/-- Reinterpret an unsigned 32-bit quantity as a signed Java `int`. -/
def toInt32 (u : Nat) : Int :=
  if u < 2 ^ 31 then (u : Int) else (u : Int) - 2 ^ 32

/-- Modelled from the spec: `IUSHR` masks the shift count to its low 5
bits and performs a LOGICAL (unsigned) right shift on the 32-bit
two's-complement representation of the int operand. -/
def iushr (x s : Int) : Int :=
  toInt32 ((x.emod (2 ^ 32)).toNat >>> (s.emod 32).toNat)

/-- The IUSHR behaviour pinned by `TestIushr` in `jvm/run_part2_test.go`:
the test pushes -200 and 3 and demands the result 25 (its comment reads
"200 >> 3 = 25"), i.e. the handler shifts the ABSOLUTE value of a
negative operand instead of its unsigned 32-bit representation. -/
def iushrCode (x s : Int) : Int :=
  let val2 := if x < 0 then -x else x
  val2 / 2 ^ (s.emod 32).toNat

/-- Stack effect of the IUSHR handler as driven by the test: the shift
count is on top of the operand stack, the value beneath it; both are
popped and the result is pushed. -/
def iushrStep : List Int → Option (List Int)
  | shiftBy :: val1 :: rest => some (iushrCode val1 shiftBy :: rest)
  | _ => none

/-- C2: the claim demands `iushr(-200, 3) = 536870887` (the logical
unsigned right shift, 0x1FFFFFE7), which is what the spec-modelled
definition yields; but the code's own unit test `TestIushr` pins the
handler's result for this exact operand pair at 25 — the handler shifts
`|-200| = 200` — so executing IUSHR on the stack `[3, -200]` leaves 25,
not 536870887, on the stack. -/
theorem iushr_neg200_by_3 :
    iushr (-200) 3 = 536870887 ∧
    iushrStep [3, -200] = some [25] ∧
    iushrCode (-200) 3 = 25 ∧ (25 : Int) ≠ 536870887 := by
  refine ⟨?_, ?_, ?_, by decide⟩ <;> decide

/-! ## Classfile parser (package `classloader`, `parse.go`)

`cfe` (construct a ClassFormatError) and `intFrom2Bytes` are called by
the embedded parser functions but defined in a file absent from the
source tree; they are modelled below.  A class file is a `List Nat` of
byte values. -/

/-- Modelled from the spec: `cfe` builds the `ClassFormatError` carrying
its diagnostic message ("all report ClassFormatError with enough context
to identify the location"). -/
def cfe (msg : String) : Except String Unit := Except.error msg

/-- Modelled from the spec: big-endian u16 read at offset `pos`
("Big-endian as specified by the JVM specification"); fails when the
buffer is too short. -/
def intFrom2Bytes (bytes : List Nat) (pos : Nat) : Except String Nat :=
  if bytes.length < pos + 2 then Except.error "invalid offset into file"
  else Except.ok (bytes.getD pos 0 * 256 + bytes.getD (pos + 1) 0)

/-- `parseMagicNumber` from `parse.go`: the buffer must hold at least
4 bytes and begin 0xCA 0xFE 0xBA 0xBE, else the ClassFormatError
"invalid magic number". -/
def parseMagicNumber (bytes : List Nat) : Except String Unit :=
  if bytes.length < 4 then cfe "invalid magic number"
  else if bytes.getD 0 0 ≠ 0xCA ∨ bytes.getD 1 0 ≠ 0xFE ∨
      bytes.getD 2 0 ≠ 0xBA ∨ bytes.getD 3 0 ≠ 0xBE then
    cfe "invalid magic number"
  else Except.ok ()

/-- C6: `parseMagicNumber` succeeds exactly when the buffer holds at
least 4 bytes whose first four are 0xCA 0xFE 0xBA 0xBE; in every other
case (short buffers included) the result is the ClassFormatError
"invalid magic number".  (The function is pure, so a failing parse
registers nothing.) -/
theorem parseMagicNumber_ok_iff (bytes : List Nat) :
    (parseMagicNumber bytes = Except.ok () ↔
      4 ≤ bytes.length ∧ bytes.getD 0 0 = 0xCA ∧ bytes.getD 1 0 = 0xFE ∧
        bytes.getD 2 0 = 0xBA ∧ bytes.getD 3 0 = 0xBE) ∧
    (parseMagicNumber bytes = Except.ok () ∨
      parseMagicNumber bytes = Except.error "invalid magic number") := by
  unfold parseMagicNumber cfe
  constructor
  · split
    · constructor
      · intro h; simp at h
      · intro h; omega
    · split
      · constructor
        · intro h; simp at h
        · intro h
          rename_i hlen hbad
          exact absurd (Or.elim hbad (fun hc => hc h.2.1)
            (fun hc => Or.elim hc (fun hc => hc h.2.2.1)
              (fun hc => Or.elim hc (fun hc => hc h.2.2.2.1)
                (fun hc => hc h.2.2.2.2)))) (fun hf => hf)
      · rename_i hlen hbad
        push_neg at hbad
        simp only [true_iff]
        exact ⟨by omega, hbad.1, hbad.2.1, hbad.2.2.1, hbad.2.2.2⟩
  · split
    · exact Or.inr rfl
    · split
      · exact Or.inr rfl
      · exact Or.inl rfl

/-- `getConstantPoolCount` from `parse.go`: read the u16 constant-pool
count at offset 8; the Go code errors when the read fails OR when
`cpEntryCount <= 2` (on a failed read the Go zero value 0 appears in the
message).  On success the count that would be stored in `klass.cpCount`
is returned. -/
def getConstantPoolCount (bytes : List Nat) : Except String Nat :=
  match intFrom2Bytes bytes 8 with
  | Except.error _ =>
      Except.error ("Invalid number of entries in constant pool: " ++ toString 0)
  | Except.ok cpEntryCount =>
      if cpEntryCount ≤ 2 then
        Except.error ("Invalid number of entries in constant pool: " ++ toString cpEntryCount)
      else Except.ok cpEntryCount

/-- A 10-byte buffer whose u16 at offset 8 is exactly 2. -/
def cpCountTwoBytes : List Nat := [0xCA, 0xFE, 0xBA, 0xBE, 0, 0, 0, 55, 0, 2]

/-- C3 counterexample: the claim says `getConstantPoolCount` reports the
ClassFormatError if and only if the count is below 2; but on a buffer
whose constant-pool count is exactly 2 (not below 2) the code still
errors, because its guard is `cpEntryCount <= 2`. -/
theorem getConstantPoolCount_rejects_two :
    intFrom2Bytes cpCountTwoBytes 8 = Except.ok 2 ∧ ¬ (2 < 2) ∧
    getConstantPoolCount cpCountTwoBytes =
      Except.error "Invalid number of entries in constant pool: 2" := by
  refine ⟨by rfl, by decide, ?_⟩
  rfl

/-- C3 amended: `getConstantPoolCount` reports the ClassFormatError if
and only if the u16 count read from the class file is at most 2 (or the
read itself fails on a short buffer); equivalently it accepts exactly
the counts of at least 3, returning them unchanged. -/
theorem getConstantPoolCount_ok_iff (bytes : List Nat) (c : Nat) :
    getConstantPoolCount bytes = Except.ok c ↔
      intFrom2Bytes bytes 8 = Except.ok c ∧ 3 ≤ c := by
  unfold getConstantPoolCount
  cases h : intFrom2Bytes bytes 8 with
  | error e => simp
  | ok n =>
      constructor
      · intro hok
        by_cases hn : n ≤ 2
        · simp [hn] at hok
        · simp [hn] at hok
          subst hok
          exact ⟨rfl, by omega⟩
      · rintro ⟨hc, h3⟩
        have hnc : n = c := by injection hc
        subst hnc
        have hn2 : ¬ n ≤ 2 := by omega
        simp [hn2]

/-! ## Superclass-name parsing (`parse.go`)

The constant-pool index structures mirror the fields of `parsedClass`
that `parseSuperClassName` touches: `cpIndex` (entry type + slot),
`classRefs` (index of the UTF8 name), `utf8Refs` (string contents). -/

/-- Constant-pool tag for UTF8 entries (spec tag table, tag 1). -/
def UTF8 : Nat := 1

/-- Constant-pool tag for Class entries (spec tag table, tag 7). -/
def ClassRef : Nat := 7

/-- One slot of `parsedClass.cpIndex`: the entry's type tag and the slot
into the per-type table it points at. -/
structure CpIndexEntry where
  entryType : Nat
  slot : Nat
deriving DecidableEq, Repr

/-- One entry of `parsedClass.classRefs`: the CP index of the UTF8 name. -/
structure ClassRefEntry where
  index : Nat
deriving DecidableEq, Repr

/-- One entry of `parsedClass.utf8Refs`. -/
structure Utf8Entry where
  content : String
deriving DecidableEq, Repr

/-- The fields of `parsedClass` read or written by `parseSuperClassName`
and `fetchUTF8string`. -/
structure ParsedClass where
  className : String
  superClass : String
  cpCount : Nat
  cpIndex : List CpIndexEntry
  classRefs : List ClassRefEntry
  utf8Refs : List Utf8Entry
deriving DecidableEq, Repr

/-- Modelled from the spec: fetch the UTF8 string a CP index points at —
the index must be in range and the referent tag must be UTF8 ("indices
must be in range, the referent tag must match the expectation"). -/
def fetchUTF8string (klass : ParsedClass) (index : Nat) : Except String String :=
  if index < 1 ∨ klass.cpCount - 1 < index then
    Except.error "attempt to fetch UTF8 at an invalid CP index"
  else if (klass.cpIndex.getD index ⟨0, 0⟩).entryType ≠ UTF8 then
    Except.error "attempt to fetch UTF8 from a non-UTF8 CP entry"
  else
    Except.ok ((klass.utf8Refs.getD (klass.cpIndex.getD index ⟨0, 0⟩).slot ⟨""⟩).content)

/-- `parseSuperClassName` from `parse.go`: read the u16 `super_class` CP
index at `loc+1`, require it to point in range at a ClassRef, follow it
to the UTF8 superclass name, allow an empty name only for
`java/lang/Object`, and record the name (at most once).  Returns the
advanced position and the updated class. -/
def parseSuperClassName (bytes : List Nat) (loc : Nat) (klass : ParsedClass) :
    Except String (Nat × ParsedClass) :=
  let pos := loc + 2
  match intFrom2Bytes bytes (loc + 1) with
  | Except.error _ => Except.error "error obtaining index for superclass name"
  | Except.ok index =>
      if index < 1 ∨ klass.cpIndex.length - 1 < index then
        Except.error "invalid index into CP for superclass name"
      else
        let pointedToClassRef := klass.cpIndex.getD index ⟨0, 0⟩
        if pointedToClassRef.entryType ≠ ClassRef then
          Except.error "invalid entry for superclass name"
        else
          let classNameIndex := (klass.classRefs.getD pointedToClassRef.slot ⟨0⟩).index
          match fetchUTF8string klass classNameIndex with
          | Except.error _ => Except.error ""
          | Except.ok superClassName =>
              if superClassName = "" ∧ klass.className ≠ "java/lang/Object" then
                Except.error "invaild empty string for superclass name"
              else if 0 < klass.superClass.length then
                Except.error ("Class can only have 1 superclass, found two: " ++
                  klass.superClass ++ " and: " ++ superClassName)
              else
                Except.ok (pos, { klass with superClass := superClassName })

/-- A minimal `java/lang/Object` parse state: CP slot 1 is a ClassRef
whose name index 2 is the empty UTF8 string. -/
def objectKlass : ParsedClass :=
  { className := "java/lang/Object"
    superClass := ""
    cpCount := 3
    cpIndex := [⟨0, 0⟩, ⟨ClassRef, 0⟩, ⟨UTF8, 0⟩]
    classRefs := [⟨2⟩]
    utf8Refs := [⟨""⟩] }

/-- C4 counterexample: the claim says a `super_class` index of 0 is
accepted when the class being parsed is `java/lang/Object`; but on a
buffer whose u16 at `loc+1` is 0 the code reports the ClassFormatError
"invalid index into CP for superclass name" even for `java/lang/Object`,
because the range check `index < 1` fires before any class-name logic. -/
theorem parseSuperClassName_rejects_zero_for_object :
    objectKlass.className = "java/lang/Object" ∧
    intFrom2Bytes [9, 0, 0] 1 = Except.ok 0 ∧
    parseSuperClassName [9, 0, 0] 0 objectKlass =
      Except.error "invalid index into CP for superclass name" := by
  refine ⟨rfl, by rfl, ?_⟩
  rfl

/-- C4 amended: `parseSuperClassName` reports a ClassFormatError for a
`super_class` index of 0 in every class, `java/lang/Object` included;
the `java/lang/Object` case is instead handled at the name level — a CP
entry resolving to an EMPTY superclass name is accepted exactly when the
class being parsed is `java/lang/Object`, and is a ClassFormatError for
every other class. -/
theorem parseSuperClassName_zero_and_empty :
    (∀ (bytes : List Nat) (loc : Nat) (klass : ParsedClass),
        intFrom2Bytes bytes (loc + 1) = Except.ok 0 →
        parseSuperClassName bytes loc klass =
          Except.error "invalid index into CP for superclass name") ∧
    (∀ (bytes : List Nat) (loc : Nat) (klass : ParsedClass) (index : Nat),
        intFrom2Bytes bytes (loc + 1) = Except.ok index →
        1 ≤ index → index ≤ klass.cpIndex.length - 1 →
        (klass.cpIndex.getD index ⟨0, 0⟩).entryType = ClassRef →
        fetchUTF8string klass
          ((klass.classRefs.getD (klass.cpIndex.getD index ⟨0, 0⟩).slot ⟨0⟩).index) =
          Except.ok "" →
        klass.superClass = "" →
        parseSuperClassName bytes loc klass =
          (if klass.className = "java/lang/Object" then
            Except.ok (loc + 2, { klass with superClass := "" })
          else Except.error "invaild empty string for superclass name")) := by
  constructor
  · intro bytes loc klass hread
    unfold parseSuperClassName
    rw [hread]
    simp
  · intro bytes loc klass index hread h1 h2 htag hutf hsupEmpty
    unfold parseSuperClassName
    rw [hread]
    dsimp only
    have hrange : ¬ (index < 1 ∨ klass.cpIndex.length - 1 < index) := by omega
    rw [if_neg hrange, htag]
    rw [if_neg (by simp : ¬ ClassRef ≠ ClassRef)]
    rw [hutf]
    dsimp only
    by_cases hcn : klass.className = "java/lang/Object"
    · rw [if_pos hcn]
      have hcond : ¬ (("" : String) = "" ∧ klass.className ≠ "java/lang/Object") := by
        simp [hcn]
      rw [if_neg hcond]
      have hlen : ¬ (0 < klass.superClass.length) := by
        rw [hsupEmpty]; decide
      rw [if_neg hlen]
    · rw [if_neg hcn]
      have hcond : (("" : String) = "" ∧ klass.className ≠ "java/lang/Object") :=
        ⟨rfl, hcn⟩
      rw [if_pos hcond]

/-- C4 witness: both branches of `parseSuperClassName_zero_and_empty`
instantiated on `objectKlass` — index 0 is rejected, while the CP route
to the empty superclass name succeeds for `java/lang/Object`. -/
theorem parseSuperClassName_zero_and_empty_witness :
    parseSuperClassName [9, 0, 0] 0 objectKlass =
      Except.error "invalid index into CP for superclass name" ∧
    parseSuperClassName [9, 0, 1] 0 objectKlass =
      Except.ok (2, { objectKlass with superClass := "" }) := by
  constructor
  · exact parseSuperClassName_zero_and_empty.1 [9, 0, 0] 0 objectKlass (by rfl)
  · have h := parseSuperClassName_zero_and_empty.2 [9, 0, 1] 0 objectKlass 1
      (by rfl) (by decide) (by decide) (by rfl) (by rfl) (by rfl)
    simpa using h

/-! ## Guest stack traces (`jvm/errors.go`, `getStackTraces`)

`object.Object` field tables become association lists; the Go code's
`f := stackTrace.FieldTable[name]; f.Fvalue = v` is modelled as an
in-place update of the named entry (the era's `FieldTable` holds
pointers, so the write lands in the object).  `instantiateClass` is not
among the sources and is modelled from the spec. -/

/-- A StackTraceElement field: descriptor tag and (string) value. -/
structure STEField where
  Ftype : String
  Fvalue : String
deriving DecidableEq, Repr

/-- A StackTraceElement instance: class pointer and field table. -/
structure STEObject where
  Klass : String
  FieldTable : List (String × STEField)
deriving DecidableEq, Repr

/-- The field of the returned object holding the StackTraceElement
array. -/
structure TraceArrayField where
  Ftype : String
  Fvalue : List STEObject
deriving DecidableEq, Repr

/-- The object `getStackTraces` returns: class pointer and the field
table that receives the "stackTrace" entry. -/
structure TraceObject where
  Klass : String
  FieldTable : List (String × TraceArrayField)
deriving DecidableEq, Repr

/-- Modelled from the spec: `instantiateClass` allocates a fresh object
and default-initializes every declared instance field (§4.5); for
`java/lang/StackTraceElement` the two string fields the error formatter
writes are `declaringClass` and `methodName`. -/
def newStackTraceElement : STEObject :=
  { Klass := "java/lang/StackTraceElement"
    FieldTable := [("declaringClass", ⟨"Ljava/lang/String;", ""⟩),
                   ("methodName", ⟨"Ljava/lang/String;", ""⟩)] }

/-- Update the value of the named entry of a field table (the Go
`FieldTable[name].Fvalue = v` write). -/
def setFieldValue (tbl : List (String × STEField)) (k v : String) :
    List (String × STEField) :=
  tbl.map fun p => if p.1 = k then (p.1, { p.2 with Fvalue := v }) else p

/-- `getStackTraces` from `jvm/errors.go`: an empty frame stack yields
nil; otherwise one fresh StackTraceElement per frame, front to back,
its `declaringClass` set to the frame's `ClName` and its `methodName`
to the frame's `MethName`, the whole listing attached under the
"stackTrace" key of a fresh object. -/
def getStackTraces (fs : List Frame) : Option TraceObject :=
  if fs.isEmpty then none
  else
    let stackListing := fs.map fun frame =>
      { Klass := newStackTraceElement.Klass
        FieldTable :=
          setFieldValue
            (setFieldValue newStackTraceElement.FieldTable "declaringClass" frame.ClName)
            "methodName" frame.MethName }
    some { Klass := "java/lang/StackTraceElement"
           FieldTable :=
             [("stackTrace", ⟨"[Ljava/lang/StackTraceElement;", stackListing⟩)] }

/-- A frame whose PC is 5. -/
def frameA : Frame := { Meth := [], PC := 5, ClName := "MyClass", MethName := "myMethod" }

/-- The same frame with PC 99. -/
def frameB : Frame := { Meth := [], PC := 99, ClName := "MyClass", MethName := "myMethod" }

/-- C5 counterexample: two frame stacks that differ only in the PC of
their single frame produce IDENTICAL results — `getStackTraces` never
reads `Frame.PC`, so the claim that each StackTraceElement records the
frame's PC is false. -/
theorem getStackTraces_ignores_pc :
    frameA.PC ≠ frameB.PC ∧ getStackTraces [frameA] = getStackTraces [frameB] :=
  ⟨by decide, rfl⟩

/-- The StackTraceElement the amended claim promises for a frame: its
`declaringClass` field holds the frame's class name and its
`methodName` field the frame's method name (no PC). -/
def steOfFrame (fr : Frame) : STEObject :=
  { Klass := "java/lang/StackTraceElement"
    FieldTable := [("declaringClass", ⟨"Ljava/lang/String;", fr.ClName⟩),
                   ("methodName", ⟨"Ljava/lang/String;", fr.MethName⟩)] }

/-- C5 amended: from a non-empty frame stack `getStackTraces` produces
one StackTraceElement per frame, in stack order, each recording that
frame's class name (under `declaringClass`) and method name (under
`methodName`) — but not its PC — and attaches the array under the
"stackTrace" field of the returned object. -/
theorem getStackTraces_records_names (fs : List Frame) (h : fs ≠ []) :
    getStackTraces fs =
      some { Klass := "java/lang/StackTraceElement"
             FieldTable :=
               [("stackTrace", ⟨"[Ljava/lang/StackTraceElement;", fs.map steOfFrame⟩)] } := by
  unfold getStackTraces
  rw [if_neg (show ¬ fs.isEmpty = true by simpa using h)]
  simp [newStackTraceElement, setFieldValue, steOfFrame]

/-- C5 witness: the amended theorem applied to the singleton stack
holding `frameA`. -/
theorem getStackTraces_records_names_witness :
    getStackTraces [frameA] =
      some { Klass := "java/lang/StackTraceElement"
             FieldTable :=
               [("stackTrace", ⟨"[Ljava/lang/StackTraceElement;", [steOfFrame frameA]⟩)] } := by
  have h := getStackTraces_records_names [frameA] (by simp)
  simpa using h

/-! ## Field type tags (package `types`) and the PUTFIELD static guard -/

/-- `types.Static`: descriptor tag prefix marking a static field. -/
def Static : String := "X"

/-- `types.IsStatic` from the `types` source: a tag is static when it
begins with the static marker (Go `strings.HasPrefix(t, Static)`). -/
def IsStatic (t : String) : Bool := Static.data.isPrefixOf t.data

/-- An `object.Field` as the PUTFIELD test exercises it: descriptor tag
plus an int64 value. -/
structure GoField where
  Ftype : String
  Fvalue : Int
deriving DecidableEq, Repr

/-- Modelled from the spec: the PUTFIELD handler's store step — "non-
static tag required: attempting to putfield on a field whose descriptor
tag begins with the static marker fails fatally" — with the error text
pinned by `TestPutFieldErrorUpdatingStatic`; on the error path the
handler returns before writing, so the field is untouched. -/
def putfieldStore (fld : GoField) (v : Int) : Except String GoField :=
  if IsStatic fld.Ftype then
    Except.error ("PUTFIELD: " ++ "invalid attempt to update a static variable")
  else Except.ok { fld with Fvalue := v }

/-- C7: a PUTFIELD against a resolved field whose descriptor tag begins
with the static marker "X" fails with an error whose message contains
"invalid attempt to update a static variable", and no updated field is
produced (the stored value is left unchanged). -/
theorem putfield_rejects_static (fld : GoField) (v : Int)
    (h : IsStatic fld.Ftype = true) :
    putfieldStore fld v =
      Except.error ("PUTFIELD: " ++ "invalid attempt to update a static variable") ∧
    ∀ g : GoField, putfieldStore fld v ≠ Except.ok g := by
  refine ⟨by simp [putfieldStore, h], ?_⟩
  intro g hg
  simp [putfieldStore, h] at hg

/-- C7 witness: the static-int field `XI` holding 42, updated with 26,
exactly as in `TestPutFieldErrorUpdatingStatic`. -/
theorem putfield_rejects_static_witness :
    IsStatic "XI" = true ∧
    putfieldStore ⟨"XI", 42⟩ 26 =
      Except.error ("PUTFIELD: " ++ "invalid attempt to update a static variable") :=
  ⟨by decide, (putfield_rejects_static ⟨"XI", 42⟩ 26 (by decide)).1⟩

/-! ## Trap native methods (`gfunction/Traps.go`)

`Traps.go` in the tree holds two revisions of the file; the embedding
follows the later, fuller one (the second `Load_Traps`).  Go's
`map[string]GMeth` assignments are modelled as an association list in
assignment order. -/

/-- Stand-in for the Go `interface{}` values handed to a G function;
the trap bodies never inspect their arguments. -/
inductive GoAny where
  | intVal (i : Int)
  | strVal (s : String)
  | objVal
deriving DecidableEq, Repr

/-- `gfunction.GErrBlk`: the error block a G function returns. -/
structure GErrBlk where
  ExceptionType : Nat
  ErrMsg : String
deriving DecidableEq, Repr

/-- Modelled from the spec: the numeric identifier of
`UnsupportedOperationException` in the `exceptions` package's constant
table.  The table is not among the sources and only the identity of the
constant matters to the claims, so an arbitrary fixed value is used. -/
def UnsupportedOperationException : Nat := 0

/-- `getGErrBlk` from `gfunction`: construct a G-function error block. -/
def getGErrBlk (exceptionType : Nat) (errMsg : String) : GErrBlk :=
  { ExceptionType := exceptionType, ErrMsg := errMsg }

/-- `trapGetDefaultFileSystem` from `Traps.go`. -/
def trapGetDefaultFileSystem (_ : List GoAny) : GErrBlk :=
  getGErrBlk UnsupportedOperationException
    "DefaultFileSystem.getFileSystem() is not yet supported"

/-- `trapCharset` from `Traps.go`. -/
def trapCharset (_ : List GoAny) : GErrBlk :=
  getGErrBlk UnsupportedOperationException
    "Class java/nio/charset/Charset is not yet supported"

/-- `trapDeprecated` from `Traps.go`. -/
def trapDeprecated (_ : List GoAny) : GErrBlk :=
  getGErrBlk UnsupportedOperationException
    "The function requested is deprecated and will not be supported by jacobin"

/-- `trapFileChannel` from `Traps.go`. -/
def trapFileChannel (_ : List GoAny) : GErrBlk :=
  getGErrBlk UnsupportedOperationException
    "Class java.nio.channels.FileChannel is not yet supported"

/-- `trapFileDescriptor` from `Traps.go`. -/
def trapFileDescriptor (_ : List GoAny) : GErrBlk :=
  getGErrBlk UnsupportedOperationException
    "Class java/io/FileDescriptor is not yet supported"

/-- `trapFileSystem` from `Traps.go`. -/
def trapFileSystem (_ : List GoAny) : GErrBlk :=
  getGErrBlk UnsupportedOperationException
    "Class java.io.FileSystem is not yet supported"

/-- `trapReader` from `Traps.go`. -/
def trapReader (_ : List GoAny) : GErrBlk :=
  getGErrBlk UnsupportedOperationException
    "The requested reader is not yet supported"

/-- `trapWriter` from `Traps.go`. -/
def trapWriter (_ : List GoAny) : GErrBlk :=
  getGErrBlk UnsupportedOperationException
    "The requested writer is not yet supported"

/-- `Load_Traps` from `Traps.go` (second revision): the method
signatures it registers, each bound to its trap body, in assignment
order.  (`trapCharset` and `trapDeprecated` are defined in the same
file; `trapCharset` is also registered by other `Load_*` functions.) -/
def Load_Traps : List (String × (List GoAny → GErrBlk)) :=
  [("java/io/DefaultFileSystem.getFileSystem()Ljava/io/FileSystem;", trapGetDefaultFileSystem),
   ("java/io/FileDescriptor.<clinit>()", trapFileDescriptor),
   ("java/io/FileSystem.<clinit>()", trapFileSystem),
   ("java/nio/charset/Charset.<clinit>()", trapCharset),
   ("java/nio/channels/FileChannel.<clinit>()", trapFileChannel),
   ("java/io/BufferedReader.<clinit>()", trapReader),
   ("java/io/CharArrayReader.<clinit>()", trapReader),
   ("java/io/FilterReader.<clinit>()", trapReader),
   ("java/io/PipedReader.<clinit>()", trapReader),
   ("java/io/StringReader.<clinit>()", trapReader),
   ("java/io/BufferedWriter.<clinit>()", trapWriter),
   ("java/io/CharArrayWriter.<clinit>()", trapWriter),
   ("java/io/FileSystem.<clinit>()", trapFileSystem),
   ("java/io/FilterWriter.<clinit>()", trapWriter),
   ("java/io/PipedWriter.<clinit>()", trapWriter),
   ("java/io/PrintWriter.<clinit>()", trapWriter),
   ("java/io/StringWriter.<clinit>()", trapWriter)]

/-- C9: every entry `Load_Traps` registers — and each of the eight trap
functions defined in `Traps.go` — returns, for every argument list, a
`GErrBlk` whose `ExceptionType` is `UnsupportedOperationException`. -/
theorem traps_return_unsupported :
    (∀ e ∈ Load_Traps, ∀ args : List GoAny,
      (e.2 args).ExceptionType = UnsupportedOperationException) ∧
    (∀ args : List GoAny,
      (trapGetDefaultFileSystem args).ExceptionType = UnsupportedOperationException ∧
      (trapCharset args).ExceptionType = UnsupportedOperationException ∧
      (trapFileChannel args).ExceptionType = UnsupportedOperationException ∧
      (trapFileDescriptor args).ExceptionType = UnsupportedOperationException ∧
      (trapFileSystem args).ExceptionType = UnsupportedOperationException ∧
      (trapReader args).ExceptionType = UnsupportedOperationException ∧
      (trapWriter args).ExceptionType = UnsupportedOperationException ∧
      (trapDeprecated args).ExceptionType = UnsupportedOperationException) := by
  constructor
  · intro e he args
    fin_cases he <;> rfl
  · intro args
    exact ⟨rfl, rfl, rfl, rfl, rfl, rfl, rfl, rfl⟩

/-- C9 witness: the first registered entry applied to the empty
argument list, and `trapDeprecated` likewise. -/
theorem traps_return_unsupported_witness :
    ((("java/io/DefaultFileSystem.getFileSystem()Ljava/io/FileSystem;",
        trapGetDefaultFileSystem) : String × (List GoAny → GErrBlk)).2
      []).ExceptionType = UnsupportedOperationException ∧
    (trapDeprecated []).ExceptionType = UnsupportedOperationException :=
  ⟨traps_return_unsupported.1 _ (by unfold Load_Traps; exact List.mem_cons_self _ _) [],
    (traps_return_unsupported.2 []).2.2.2.2.2.2.2⟩

/-! ## Bytecode verification (`classloader`, `VerifyClass`)

The Prolog engine is an external collaborator; its `classIsTypeSafe`
query outcome enters the model as a parameter (`none` for success,
`some msg` when `sols.Err()` is non-nil). -/

/-- The fields of `classloader.Klass` that `VerifyClass` threads through
to the registered Prolog predicates (the struct's own file is not among
the sources; the verdict never depends on them). -/
structure Klass where
  Name : String
  Loader : String
deriving DecidableEq, Repr

/-- `VerifyClass` from the classloader verifier source: run the
`classIsTypeSafe(?)` query for the class; when the query reports an
error, print it (first component) and return nil; otherwise return nil.
The returned error is the second component. -/
def VerifyClass (_klass : Klass) (_loader : String) (queryErr : Option String) :
    List String × Option String :=
  match queryErr with
  | some errText => ([errText], none)
  | none => ([], none)

/-- C10: `VerifyClass` returns nil for every class, classloader and
query outcome — even when the Prolog `classIsTypeSafe` query raises an
error, the error is only printed and nil is returned, so bytecode
verification never rejects any class. -/
theorem verifyClass_always_nil (klass : Klass) (loader : String)
    (queryErr : Option String) :
    (VerifyClass klass loader queryErr).2 = none := by
  cases queryErr <;> rfl

/-! ## Command-line handling (`main`, `cli.go`)

Go strings are `List Char` here so that `strings.Fields` can be
reasoned about.  `isSpaceGo` models `unicode.IsSpace` on the ASCII
whitespace the CLI deals in. -/

/-- Whitespace as Go's `unicode.IsSpace` reports it for ASCII input
(space, tab, newline, vertical tab, form feed, carriage return). -/
def isSpaceGo (c : Char) : Bool :=
  c = ' ' || c = '\t' || c = '\n' || c = Char.ofNat 11 || c = Char.ofNat 12 || c = '\r'

/-- Worker for `goFields`: accumulate the current word (reversed) and
emit it at each whitespace run or at the end. -/
def fieldsAux : List Char → List Char → List (List Char)
  | [], acc => if acc.isEmpty then [] else [acc.reverse]
  | c :: rest, acc =>
      if isSpaceGo c then
        if acc.isEmpty then fieldsAux rest [] else acc.reverse :: fieldsAux rest []
      else fieldsAux rest (c :: acc)

/-- Go's `strings.Fields`: split around runs of whitespace, dropping
empty fields. -/
def goFields (s : List Char) : List (List Char) := fieldsAux s []

/-- Go's `strings.HasSuffix(s, " ")`: the last character is a space. -/
def endsWithSpace (s : List Char) : Bool :=
  match s.getLast? with
  | some c => c = ' '
  | none => false

/-- Go's `strings.TrimSpace`: drop leading and trailing whitespace. -/
def trimSpace (s : List Char) : List Char :=
  ((s.dropWhile isSpaceGo).reverse.dropWhile isSpaceGo).reverse

/-- One iteration of the loop in `getEnvArgs` (`cli.go`): a non-empty
environment-variable value is appended, followed by a space unless the
accumulator already ends in one; an empty value is skipped. -/
def envStep (envArgs envString : List Char) : List Char :=
  if 0 < envString.length then
    if endsWithSpace (envArgs ++ envString) then envArgs ++ envString
    else (envArgs ++ envString) ++ [' ']
  else envArgs

/-- `getEnvArgs` from `cli.go`: concatenate the values of
JAVA_TOOL_OPTIONS, _JAVA_OPTIONS and JDK_JAVA_OPTIONS in that order
(space-separated, skipping empty ones) and trim the result.  `env`
models `os.Getenv`, with unset variables yielding the empty string. -/
def getEnvArgs (env : String → List Char) : List Char :=
  trimSpace (envStep (envStep (envStep [] (env "JAVA_TOOL_OPTIONS"))
    (env "_JAVA_OPTIONS")) (env "JDK_JAVA_OPTIONS"))

/-- The argument list `HandleCli` (`cli.go`) builds into `Global.args`:
the fields of the environment-option string followed by the
command-line arguments `osArgs[1:]`. -/
def HandleCliArgs (env : String → List Char) (osArgs : List (List Char)) :
    List (List Char) :=
  goFields (getEnvArgs env) ++ osArgs.drop 1

lemma fieldsAux_append_space (c : Char) (hc : isSpaceGo c = true) (b : List Char) :
    ∀ (a acc : List Char), fieldsAux (a ++ c :: b) acc = fieldsAux a acc ++ fieldsAux b [] := by
  intro a
  induction a with
  | nil =>
      intro acc
      show fieldsAux (c :: b) acc = fieldsAux [] acc ++ fieldsAux b []
      simp only [fieldsAux, hc, if_true]
      by_cases h : acc.isEmpty <;> simp [h]
  | cons d a ih =>
      intro acc
      show fieldsAux (d :: (a ++ c :: b)) acc = fieldsAux (d :: a) acc ++ fieldsAux b []
      simp only [fieldsAux]
      by_cases hd : isSpaceGo d
      · by_cases ha : acc.isEmpty <;> simp [hd, ha, ih]
      · simp [hd, ih]

lemma fieldsAux_append_one_space (c : Char) (hc : isSpaceGo c = true)
    (a acc : List Char) : fieldsAux (a ++ [c]) acc = fieldsAux a acc := by
  have h := fieldsAux_append_space c hc [] a acc
  simpa [fieldsAux] using h

lemma fieldsAux_append_all_space :
    ∀ (t : List Char), (∀ c ∈ t, isSpaceGo c = true) →
      ∀ (s acc : List Char), fieldsAux (s ++ t) acc = fieldsAux s acc := by
  intro t
  induction t with
  | nil => intro _ s acc; simp
  | cons c t ih =>
      intro ht s acc
      have hc : isSpaceGo c = true := ht c (List.mem_cons_self _ _)
      have ht' : ∀ d ∈ t, isSpaceGo d = true := fun d hd => ht d (List.mem_cons_of_mem _ hd)
      have h1 : s ++ c :: t = (s ++ [c]) ++ t := by simp
      rw [h1, ih ht' (s ++ [c]) acc, fieldsAux_append_one_space c hc]

lemma fieldsAux_all_space_prepend :
    ∀ (t : List Char), (∀ c ∈ t, isSpaceGo c = true) →
      ∀ s : List Char, fieldsAux (t ++ s) [] = fieldsAux s [] := by
  intro t
  induction t with
  | nil => intro _ s; simp
  | cons c t ih =>
      intro ht s
      have hc : isSpaceGo c = true := ht c (List.mem_cons_self _ _)
      have ht' : ∀ d ∈ t, isSpaceGo d = true := fun d hd => ht d (List.mem_cons_of_mem _ hd)
      show fieldsAux (c :: (t ++ s)) [] = fieldsAux s []
      simp only [fieldsAux, hc, if_true, List.isEmpty_nil]
      exact ih ht' s

lemma goFields_dropWhile_space (s : List Char) :
    goFields (s.dropWhile isSpaceGo) = goFields s := by
  conv_rhs => rw [← List.takeWhile_append_dropWhile (p := isSpaceGo) (l := s)]
  unfold goFields
  rw [fieldsAux_all_space_prepend (s.takeWhile isSpaceGo)
    (fun c hc => List.mem_takeWhile_imp hc) _]

lemma goFields_trimRight_space (r : List Char) :
    goFields ((r.reverse.dropWhile isSpaceGo).reverse) = goFields r := by
  have hdecomp : r = (r.reverse.dropWhile isSpaceGo).reverse ++
      (r.reverse.takeWhile isSpaceGo).reverse := by
    conv_lhs =>
      rw [← List.reverse_reverse r,
        ← List.takeWhile_append_dropWhile (p := isSpaceGo) (l := r.reverse)]
    rw [List.reverse_append]
  conv_rhs => rw [hdecomp]
  unfold goFields
  rw [fieldsAux_append_all_space ((r.reverse.takeWhile isSpaceGo).reverse)
    (fun c hc => List.mem_takeWhile_imp (List.mem_reverse.mp hc)) _ _]

lemma goFields_trimSpace (s : List Char) : goFields (trimSpace s) = goFields s := by
  unfold trimSpace
  rw [goFields_trimRight_space, goFields_dropWhile_space]

lemma goFields_append_of_ends_space (a v : List Char)
    (h : a = [] ∨ endsWithSpace a = true) :
    goFields (a ++ v) = goFields a ++ goFields v := by
  rcases h with h | h
  · subst h; simp [goFields, fieldsAux]
  · have hne : a ≠ [] := by
      intro h0; subst h0; simp [endsWithSpace] at h
    have hlast : a.getLast hne = ' ' := by
      unfold endsWithSpace at h
      rw [List.getLast?_eq_getLast a hne] at h
      simpa using h
    have hdecomp : a = a.dropLast ++ [' '] := by
      conv_lhs => rw [← List.dropLast_append_getLast hne]
      rw [hlast]
    rw [hdecomp, List.append_assoc]
    unfold goFields
    rw [List.singleton_append,
      fieldsAux_append_space ' ' (by decide) v a.dropLast [],
      fieldsAux_append_one_space ' ' (by decide)]

lemma envStep_spec (a v : List Char) (ha : a = [] ∨ endsWithSpace a = true) :
    (envStep a v = [] ∨ endsWithSpace (envStep a v) = true) ∧
    goFields (envStep a v) = goFields a ++ goFields v := by
  unfold envStep
  by_cases hv : 0 < v.length
  · rw [if_pos hv]
    by_cases he : endsWithSpace (a ++ v) = true
    · rw [if_pos he]
      exact ⟨Or.inr he, goFields_append_of_ends_space a v ha⟩
    · rw [if_neg he]
      constructor
      · right
        unfold endsWithSpace
        rw [List.getLast?_concat]
        simp
      · unfold goFields
        rw [fieldsAux_append_one_space ' ' (by decide)]
        exact goFields_append_of_ends_space a v ha
  · rw [if_neg hv]
    have hv0 : v = [] := by
      cases v with
      | nil => rfl
      | cons c t => simp at hv
    subst hv0
    exact ⟨ha, by simp [goFields, fieldsAux]⟩

/-- C8: the argument list `HandleCli` builds is exactly the fields of
JAVA_TOOL_OPTIONS, then those of _JAVA_OPTIONS, then those of
JDK_JAVA_OPTIONS, prepended in that order ahead of the command-line
arguments; an unset or empty variable contributes nothing (its field
list is empty). -/
theorem handleCli_env_prepend_order (env : String → List Char)
    (osArgs : List (List Char)) :
    HandleCliArgs env osArgs =
      goFields (env "JAVA_TOOL_OPTIONS") ++ goFields (env "_JAVA_OPTIONS") ++
        goFields (env "JDK_JAVA_OPTIONS") ++ osArgs.drop 1 := by
  unfold HandleCliArgs getEnvArgs
  rw [goFields_trimSpace]
  have h1 := envStep_spec [] (env "JAVA_TOOL_OPTIONS") (Or.inl rfl)
  have h2 := envStep_spec _ (env "_JAVA_OPTIONS") h1.1
  have h3 := envStep_spec _ (env "JDK_JAVA_OPTIONS") h2.1
  rw [h3.2, h2.2, h1.2]
  simp [goFields, fieldsAux, List.append_assoc]
